import Mathlib

/-!
Verification development for the teo schema-driven data server.

Shallow embedding of the parts of the source relevant to the checked
properties: the SQL dialect column-type mapping
(src/connectors/sql/schema/type/field.rs), the connector URL normalization
(src/connectors/sql/url/mod.rs), the schema graph and its query entry
points (src/core/graph/mod.rs), and the process-wide application context
(src/app/app_ctx.rs).

Rust `panic!` is modeled as `Except.error` (for the type mapping, whose
panic carries the message literal) or as the `PResult.panicked`
constructor (for `Option::unwrap` panics in the graph).  Fallible Rust
functions returning `Result` are modeled with `Except`.
-/

namespace Teo

/-- The SQL dialects, from src/connectors/sql/schema/dialect.rs usage. -/
inductive SQLDialect
  | sqlite
  | mysql
  | postgresql
  | mssql
deriving DecidableEq

/-- The database column types, with the constructors and payloads used by
the default type maps in src/connectors/sql/schema/type/field.rs.
Numeric display widths `m`, decimal digits `d`, the unsigned flag `u`,
and the varchar charset/collation options `n`, `c` mirror the Rust
struct-variant fields. -/
inductive DatabaseType
  | undefined
  | bool
  | tinyInt (m : Option Nat) (u : Bool)
  | smallInt (m : Option Nat) (u : Bool)
  | int (m : Option Nat) (u : Bool)
  | bigInt (m : Option Nat) (u : Bool)
  | real
  | double (m : Option Nat) (d : Option Nat)
  | varChar (m : Nat) (n : Option String) (c : Option String)
  | date
  | dateTime (fsp : Nat)
deriving DecidableEq

/-- The field types of the schema.  The enum itself is declared outside
the given sources; its constructors are reconstructed from the match arms
of `default_database_type_mysql` together with the unconditional
`FieldType::Decimal` use at src/old_app/parse_schema.rs:139, which is
named by no explicit arm of the MySQL map and therefore reaches its
catch-all.  Constructor payloads (the enum path of `Enum`, the element
field of `Vec`/`HashMap`/`BTreeMap`, the model path of `Object`) are
omitted because no embedded function inspects them.  The `objectId`
constructor is feature-gated on mongodb in the source; the feature is
taken as enabled. -/
inductive FieldType
  | undefined
  | objectId
  | bool
  | i8
  | i16
  | i32
  | i64
  | i128
  | u8
  | u16
  | u32
  | u64
  | u128
  | f32
  | f64
  | decimal
  | string
  | date
  | dateTime
  | enum
  | vec
  | hashMap
  | bTreeMap
  | object
deriving DecidableEq

/-- `default_database_type_mysql` of
src/connectors/sql/schema/type/field.rs, arm for arm, ending in the
source's live catch-all arm returning `Undefined` (field.rs:52), which
is reached exactly by `decimal`: every other constructor is matched by
an explicit arm above it. -/
def default_database_type_mysql : FieldType → DatabaseType
  | .undefined => .undefined
  | .objectId => .undefined
  | .bool => .bool
  | .i8 => .tinyInt none false
  | .i16 => .smallInt none false
  | .i32 => .int none false
  | .i64 => .bigInt none false
  | .i128 => .bigInt none false
  | .u8 => .tinyInt none true
  | .u16 => .smallInt none true
  | .u32 => .int none true
  | .u64 => .bigInt none true
  | .u128 => .bigInt none true
  | .f32 => .real
  | .f64 => .double none none
  | .string => .varChar 191 none none
  | .date => .date
  | .dateTime => .dateTime 3
  | .enum => .undefined
  | .vec => .undefined
  | .hashMap => .undefined
  | .bTreeMap => .undefined
  | .object => .undefined
  | _ => .undefined

/-- `default_database_type_mssql`: the source body is a single catch-all
arm that panics with the message literal. -/
def default_database_type_mssql : FieldType → Except String DatabaseType :=
  fun _ => .error "Unhandled."

/-- `default_database_type_postgresql`: the source body is a single
catch-all arm that panics with the message literal. -/
def default_database_type_postgresql : FieldType → Except String DatabaseType :=
  fun _ => .error "Unhandled."

/-- `default_database_type_sqlite`: the source body is a single catch-all
arm that panics with the message literal. -/
def default_database_type_sqlite : FieldType → Except String DatabaseType :=
  fun _ => .error "Unhandled."

/-- `FieldType::to_database_type` of
src/connectors/sql/schema/type/field.rs: dispatch on the dialect.  The
MySQL branch cannot panic, so its result is wrapped in `Except.ok`. -/
def to_database_type (field_type : FieldType) (dialect : SQLDialect) :
    Except String DatabaseType :=
  match dialect with
  | .sqlite => default_database_type_sqlite field_type
  | .mysql => .ok (default_database_type_mysql field_type)
  | .postgresql => default_database_type_postgresql field_type
  | .mssql => default_database_type_mssql field_type

/-- Result of a Rust computation that may hit an `Option::unwrap` panic
(or an explicit `panic!` without a message we track). -/
inductive PResult (α : Type)
  | panicked
  | ok (a : α)
deriving DecidableEq

/-- The per-request environment (src/core/env).  Its contents (identity,
transaction handle, source tag) are never inspected by the embedded
functions, so it is modeled opaquely by a tag. -/
structure Env where
  tag : Nat
deriving DecidableEq

/-- `Env::custom_code()`, the environment used by `Graph::create_object`. -/
def Env.customCode : Env := ⟨0⟩

/-- The action error type (src/core/error).  `objectNotFound` and
`invalidOperation` mirror the constructor functions used in
src/core/graph/mod.rs; `custom` stands for any other error value a
connector may produce. -/
inductive ActionError
  | objectNotFound
  | invalidOperation (msg : String)
  | custom (msg : String)
deriving DecidableEq

/-- A single-quote character, used to build Rust format-string messages
verbatim. -/
def sq : String := String.singleton (Char.ofNat 39)

/-- The message of the `invalid_operation` error raised by
`Graph::new_object` for an undefined model name. -/
def modelNotDefinedMsg (model : String) : String :=
  "Model with name " ++ sq ++ model ++ sq ++ " is not defined."

/-- `serde_json::Value`: JSON values as used by the finder payloads. -/
inductive Json
  | null
  | bool (b : Bool)
  | num (n : Int)
  | str (s : String)
  | arr (items : List Json)
  | obj (fields : List (String × Json))

/-- `Value::as_object`, returning the field map of an object value. -/
def Json.asObject : Json → Option (List (String × Json))
  | .obj fields => some fields
  | _ => none

/-- Insert into a string-keyed map (serde_json map / std `HashMap`
insert): replace the value of an existing key in place, otherwise
append the binding. -/
def mapInsert {β : Type} (k : String) (v : β) :
    List (String × β) → List (String × β)
  | [] => [(k, v)]
  | (k2, v2) :: rest =>
    if k2 = k then (k, v) :: rest else (k2, v2) :: mapInsert k v rest

/-- Lookup in a string-keyed map. -/
def mapGet {β : Type} (k : String) : List (String × β) → Option β
  | [] => none
  | (k2, v) :: rest => if k2 = k then some v else mapGet k rest

/-- A relation of a model (src/core/relation, declared outside the given
sources; fields reconstructed from the accessors used in
src/core/graph/mod.rs and the spec tuple
`(name, model_path, fields[], references[], through?, foreign?, is_vec,
optional)`). -/
structure Relation where
  name : String
  model : String
  fields : List String
  references : List String
  through : Option String
  foreign : String
  isVec : Bool
  isOptional : Bool
deriving DecidableEq

/-- A model of the schema graph (src/core/model, declared outside the
given sources).  Only the parts read by the embedded graph functions are
modeled: the name, the url segment name and the relation list. -/
structure Model where
  name : String
  urlSegmentName : String
  relations : List Relation
deriving DecidableEq

/-- `Model::relation(name)`: the model's relation with the given name. -/
def Model.relation (m : Model) (name : String) : Option Relation :=
  m.relations.find? (fun r => r.name == name)

/-- A runtime object (src/core/object, declared outside the given
sources).  The graph back-reference held by the Rust object is omitted
(it is cyclic); the value state is a field map. -/
structure Object where
  model : Model
  env : Env
  values : List (String × Json)

/-- `Object::new(graph, model, env)`, graph back-reference omitted. -/
def Object.new (model : Model) (env : Env) : Object :=
  ⟨model, env, []⟩

/-- Modelled from the spec: `Object::set_json` (not under src/) applies
the decoded payload fields to the object (spec section 4.6).  Only its
use inside `Graph::create_object`, after the object exists, matters
here; decoding and validation are out of scope for the checked claims. -/
def Object.setJson (o : Object) (payload : Json) : Object :=
  match payload.asObject with
  | some fields => { o with values := fields }
  | none => o

/-- The connector interface (src/core/connector), restricted to the
methods invoked by src/core/graph/mod.rs.  Each method is a pure
function from its arguments to a result; the graph argument the Rust
trait also receives is omitted (cyclic). -/
structure Connector where
  findUnique : Model → Json → Bool → Env → Except ActionError Object
  findMany : Model → Json → Bool → Env → Except ActionError (List Object)
  count : Model → Json → Except ActionError Nat
  aggregate : Model → Json → Except ActionError Json
  groupBy : Model → Json → Except ActionError Json

/-- The schema graph (struct `GraphInner` of src/core/graph/mod.rs). -/
structure Graph where
  enums : List (String × List String)
  modelsVec : List Model
  modelsMap : List (String × Model)
  urlSegmentNameMap : List (String × String)
  connector : Option Connector

/-- `Graph::new`: build the name map and the url-segment map by
iterating over the built models, inserting
`name -> model` and `url_segment_name -> name` in order.  The builder
callback and the connector construction are abstracted into the model
list and connector passed in. -/
def Graph.new (enums : List (String × List String)) (models : List Model)
    (connector : Option Connector) : Graph :=
  { enums := enums
    modelsVec := models
    modelsMap := models.foldl (fun acc m => mapInsert m.name m acc) []
    urlSegmentNameMap :=
      models.foldl (fun acc m => mapInsert m.urlSegmentName m.name acc) []
    connector := connector }

/-- `Graph::model(name)`. -/
def Graph.model (g : Graph) (name : String) : Option Model :=
  mapGet name g.modelsMap

/-- `Graph::model_with_url_segment_name(segment_name)`. -/
def Graph.modelWithUrlSegmentName (g : Graph) (segmentName : String) :
    Option Model :=
  match mapGet segmentName g.urlSegmentNameMap with
  | some val => g.model val
  | none => none

/-- `Graph::connector()`: panics when no connector is installed. -/
def Graph.connectorFn (g : Graph) : PResult Connector :=
  match g.connector with
  | some c => .ok c
  | none => .panicked

/-- `Graph::find_unique`: unwrap the model lookup (panics for an
undefined model name), then delegate to the connector. -/
def Graph.findUnique (g : Graph) (model : String) (finder : Json)
    (mutationMode : Bool) (env : Env) : PResult (Except ActionError Object) :=
  match g.model model with
  | none => .panicked
  | some m =>
    match g.connectorFn with
    | .panicked => .panicked
    | .ok c => .ok (c.findUnique m finder mutationMode env)

/-- `Graph::find_many`: unwrap the model lookup, then delegate to the
connector. -/
def Graph.findMany (g : Graph) (model : String) (finder : Json)
    (mutationMode : Bool) (env : Env) :
    PResult (Except ActionError (List Object)) :=
  match g.model model with
  | none => .panicked
  | some m =>
    match g.connectorFn with
    | .panicked => .panicked
    | .ok c => .ok (c.findMany m finder mutationMode env)

/-- `Graph::find_first`: unwrap the model lookup, unwrap the finder as a
JSON object (panics otherwise), set its take key to 1, run the
connector's find_many, then return the error unchanged, an
object-not-found error on an empty list, or the first element. -/
def Graph.findFirst (g : Graph) (model : String) (finder : Json)
    (mutationMode : Bool) (env : Env) : PResult (Except ActionError Object) :=
  match g.model model with
  | none => .panicked
  | some m =>
    match finder.asObject with
    | none => .panicked
    | some o =>
      let finder2 := Json.obj (mapInsert "take" (Json.num 1) o)
      match g.connectorFn with
      | .panicked => .panicked
      | .ok c =>
        .ok (match c.findMany m finder2 mutationMode env with
             | .error err => .error err
             | .ok retval =>
               match retval with
               | [] => .error ActionError.objectNotFound
               | x :: _ => .ok x)

/-- `Graph::count`. -/
def Graph.count (g : Graph) (model : String) (finder : Json) :
    PResult (Except ActionError Nat) :=
  match g.model model with
  | none => .panicked
  | some m =>
    match g.connectorFn with
    | .panicked => .panicked
    | .ok c => .ok (c.count m finder)

/-- `Graph::aggregate`. -/
def Graph.aggregate (g : Graph) (model : String) (finder : Json) :
    PResult (Except ActionError Json) :=
  match g.model model with
  | none => .panicked
  | some m =>
    match g.connectorFn with
    | .panicked => .panicked
    | .ok c => .ok (c.aggregate m finder)

/-- `Graph::group_by`. -/
def Graph.groupBy (g : Graph) (model : String) (finder : Json) :
    PResult (Except ActionError Json) :=
  match g.model model with
  | none => .panicked
  | some m =>
    match g.connectorFn with
    | .panicked => .panicked
    | .ok c => .ok (c.groupBy m finder)

/-- `Graph::new_object`: returns an invalid-operation error (not a
panic) for an undefined model name. -/
def Graph.newObject (g : Graph) (model : String) (env : Env) :
    Except ActionError Object :=
  match g.model model with
  | some m => .ok (Object.new m env)
  | none => .error (.invalidOperation (modelNotDefinedMsg model))

/-- `Graph::create_object`: create via `new_object` under the
custom-code env, then apply the initial payload (the Rust code discards
`set_json`'s result). -/
def Graph.createObject (g : Graph) (model : String) (initial : Json) :
    Except ActionError Object :=
  match g.newObject model Env.customCode with
  | .error e => .error e
  | .ok obj => .ok (obj.setJson initial)

/-- The fixed page size of `Graph::batch`
(`let batch_size: usize = 200`). -/
def batchSize : Nat := 200

/-- The finder of batch page `index`: the original finder fields with
skip set to `index * batch_size` and then take set to `batch_size`, in
the source's insertion order. -/
def batchFinder (o : List (String × Json)) (index : Nat) :
    List (String × Json) :=
  mapInsert "take" (Json.num (batchSize : Nat))
    (mapInsert "skip" (Json.num ((index * batchSize : Nat) : Int)) o)

/-- The `for result in results { f(result).await? }` loop body of
`Graph::batch`: run the callback over the page in order, threading the
callback's effect state and stopping at the first error. -/
def runCallback {σ : Type} (f : Object → σ → Except ActionError σ) :
    List Object → σ → Except ActionError σ
  | [], s => .ok s
  | x :: xs, s =>
    match f x s with
    | .error e => .error e
    | .ok s2 => runCallback f xs s2

/-- The loop of `Graph::batch`, with explicit fuel (the Rust loop has no
bound; `none` means the fuel ran out before the loop returned).  Each
iteration clones the finder, unwraps it as a JSON object (panics
otherwise), inserts skip and take, calls `Graph::find_many` with
mutation mode on, propagates its error, runs the callback over the
results in order propagating its error, and returns ok exactly when the
page has fewer than `batch_size` rows.  The callback's side effects are
modeled by the threaded state `σ`. -/
def Graph.batchAux {σ : Type} (g : Graph) (model : String) (finder : Json)
    (env : Env) (f : Object → σ → Except ActionError σ) :
    Nat → Nat → σ → Option (PResult (Except ActionError σ))
  | 0, _, _ => none
  | fuel + 1, index, s =>
    match finder.asObject with
    | none => some .panicked
    | some o =>
      match g.findMany model (Json.obj (batchFinder o index)) true env with
      | .panicked => some .panicked
      | .ok (.error e) => some (.ok (.error e))
      | .ok (.ok results) =>
        match runCallback f results s with
        | .error e => some (.ok (.error e))
        | .ok s2 =>
          if results.length < batchSize then some (.ok (.ok s2))
          else g.batchAux model finder env f fuel (index + 1) s2

/-- `Graph::batch`: start the paging loop at index 0. -/
def Graph.batch {σ : Type} (g : Graph) (model : String) (finder : Json)
    (env : Env) (f : Object → σ → Except ActionError σ) (fuel : Nat)
    (s : σ) : Option (PResult (Except ActionError σ)) :=
  g.batchAux model finder env f fuel 0 s

/-- A callback that records every object it is applied to, in order, and
never fails; its state is the trace of visited objects. -/
def recordingCallback : Object → List Object → Except ActionError (List Object) :=
  fun x s => .ok (s ++ [x])

/-- `Graph::opposite_relation`, with explicit fuel for the transitive
through-resolution (the Rust recursion has no bound; `none` means the
fuel ran out).  For a through-relation the source unwraps the through
model and its relation named by the foreign key (panicking when either
is missing) and recurses; for a direct relation it returns the
referenced model and the first relation on it whose fields equal this
relation's references and whose references equal this relation's
fields, or `none` when the model or such a relation is missing. -/
def Graph.oppositeRelation (g : Graph) :
    Nat → Relation → Option (PResult (Option (Model × Relation)))
  | 0, _ => none
  | fuel + 1, relation =>
    match relation.through with
    | some through =>
      match g.model through with
      | none => some .panicked
      | some throughModel =>
        match throughModel.relation relation.foreign with
        | none => some .panicked
        | some r2 => g.oppositeRelation fuel r2
    | none =>
      match g.model relation.model with
      | none => some (.ok none)
      | some oppositeModel =>
        match oppositeModel.relations.find?
            (fun r => r.fields == relation.references &&
                      r.references == relation.fields) with
        | none => some (.ok none)
        | some oppositeRel => some (.ok (some (oppositeModel, oppositeRel)))

/-- The top-level error type (src/core/error `Error`, declared outside
the given sources); only the `fatal` constructor used by
src/app/app_ctx.rs is modeled. -/
inductive Error
  | fatal (msg : String)
deriving DecidableEq

/-- The application context of src/app/app_ctx.rs.  `AppCtx::new`
initializes every option field to `None` and the flags to their
defaults; only a representative subset of the fields is modeled, the
checked claim concerns creation and access of the singleton, not the
fields. -/
structure AppCtx where
  parser : Option Unit
  connector : Option Unit
  graph : Option Unit
  ignoreCallbacks : Bool
deriving DecidableEq

/-- `AppCtx::new()`. -/
def AppCtx.new : AppCtx :=
  { parser := none, connector := none, graph := none,
    ignoreCallbacks := false }

/-- `AppCtx::create()`: the `static mut CURRENT` cell is modeled by
explicit state passing of `Option AppCtx`.  When a context exists,
return false and leave it; otherwise install a fresh context and return
true. -/
def AppCtx.create (current : Option AppCtx) : Bool × Option AppCtx :=
  match current with
  | some ctx => (false, some ctx)
  | none => (true, some AppCtx.new)

/-- `AppCtx::get()`: the current context, or a fatal error when none has
been created. -/
def AppCtx.get (current : Option AppCtx) : Except Error AppCtx :=
  match current with
  | some ctx => .ok ctx
  | none => .error (.fatal "App ctx is accessed while there is none.")

/-- A parsed connector URL, modeling the surface of the `url` crate used
by src/connectors/sql/url/mod.rs (the crate itself is external; parsing
is outside the embedded function, which receives an already-parsed
URL). -/
structure Url where
  scheme : String
  username : String
  password : Option String
  host : String
  port : Option Nat
  path : String
deriving DecidableEq

/-- `Url::set_username` on a URL with a host. -/
def Url.setUsername (u : Url) (name : String) : Url :=
  { u with username := name }

/-- `Url::set_password` on a URL with a host. -/
def Url.setPassword (u : Url) (password : Option String) : Url :=
  { u with password := password }

/-- `url_utils::normalized_url` of src/connectors/sql/url/mod.rs, after
the parse step: for the MySQL dialect with an empty username, set the
username to root, and when no password is present set it to the empty
string; otherwise return the URL unchanged. -/
def normalized_url (dialect : SQLDialect) (url : Url) : Url :=
  if dialect = SQLDialect.mysql then
    if url.username = "" then
      let url := url.setUsername "root"
      if url.password = none then url.setPassword (some "") else url
    else url
  else url

/-- Modelled from the spec: a stored row of the `Simple` model of spec
section 8 scenario 1 (the HTTP create path and its store are not under
src/; only the integration test is).  Only the fields the scenario sends
are modeled. -/
structure SimpleRow where
  id : Nat
  uniqueString : String
  requiredString : String
deriving DecidableEq

/-- Modelled from the spec: the response envelope of spec section 6,
specialized to the create action: a success carries the HTTP status and
the data fields including the assigned id; a failure carries the status
and the error object's type, message and field-error map. -/
inductive CreateResponse
  | success (status : Nat) (id : Nat) (uniqueString requiredString : String)
  | failure (status : Nat) (errType : String) (message : String)
      (errors : List (String × String))
deriving DecidableEq

/-- Modelled from the spec: the Create action on `Simple` (spec sections
6 to 8; the server code is not under src/).  A payload whose
uniqueString duplicates a stored row fails with status 400, error type
ValidationError and the field-error map of the integration test;
otherwise a row with a fresh id is stored and returned with status
200. -/
def simpleCreate (store : List SimpleRow) (uniqueString requiredString : String) :
    CreateResponse × List SimpleRow :=
  if store.any (fun row => row.uniqueString == uniqueString) then
    (.failure 400 "ValidationError" "Input is not valid."
        [("uniqueString", "Unique value duplicated.")], store)
  else
    let newId := store.length
    (.success 200 newId uniqueString requiredString,
     store ++ [⟨newId, uniqueString, requiredString⟩])

/-- A connector fixture whose queries return empty results. -/
def emptyConnector : Connector :=
  { findUnique := fun _ _ _ _ => .error .objectNotFound
    findMany := fun _ _ _ _ => .ok []
    count := fun _ _ => .ok 0
    aggregate := fun _ _ => .ok .null
    groupBy := fun _ _ => .ok .null }

/-- Fixture: the relation of model A pointing at model B. -/
def relAB : Relation := ⟨"b", "B", ["bId"], ["id"], none, "", false, false⟩

/-- Fixture: the opposite relation of model B pointing at model A. -/
def relBA : Relation := ⟨"a", "A", ["id"], ["bId"], none, "", true, false⟩

/-- Fixture: model A with url segment as. -/
def modelA : Model := ⟨"A", "as", [relAB]⟩

/-- Fixture: model B with url segment bs. -/
def modelB : Model := ⟨"B", "bs", [relBA]⟩

/-- Fixture: a graph holding models A and B and the empty connector. -/
def sampleGraph : Graph := Graph.new [] [modelA, modelB] (some emptyConnector)

/-- Fixture: a credential-less MySQL connector URL. -/
def mysqlUrl : Url := ⟨"mysql", "", none, "localhost", some 3306, "/db"⟩

/-- The state of the recording callback after the first `i` pages: the
initial trace followed by the rows of pages 0 to i-1 in order. -/
def recordingStates (s0 : List Object) (rows : Nat → List Object)
    (i : Nat) : List Object :=
  s0 ++ ((List.range i).map rows).flatten

/-- Lookup of a key just inserted. -/
theorem mapGet_mapInsert_self {β : Type} (k : String) (v : β)
    (m : List (String × β)) : mapGet k (mapInsert k v m) = some v := by
  induction m with
  | nil => simp [mapInsert, mapGet]
  | cons hd tl ih =>
    obtain ⟨k2, v2⟩ := hd
    by_cases h : k2 = k <;> simp [mapInsert, mapGet, h, ih]

/-- Insertion of a different key does not change a lookup. -/
theorem mapGet_mapInsert_ne {β : Type} (k k2 : String) (v : β)
    (m : List (String × β)) (h : k2 ≠ k) :
    mapGet k (mapInsert k2 v m) = mapGet k m := by
  induction m with
  | nil => simp [mapInsert, mapGet, h]
  | cons hd tl ih =>
    obtain ⟨k3, v3⟩ := hd
    simp only [mapInsert]
    by_cases h3 : k3 = k2
    · subst h3
      simp [mapGet, h]
    · simp only [if_neg h3]
      by_cases h4 : k3 = k
      · subst h4
        simp [mapGet]
      · simp [mapGet, h4, ih]

/-- A fold of insertions whose keys all differ from `k` does not change
the lookup of `k`. -/
theorem mapGet_foldl_not_mem {α β : Type} (key : α → String) (val : α → β)
    (xs : List α) (acc : List (String × β)) (k : String)
    (h : ∀ x ∈ xs, key x ≠ k) :
    mapGet k (xs.foldl (fun a x => mapInsert (key x) (val x) a) acc) =
      mapGet k acc := by
  induction xs generalizing acc with
  | nil => rfl
  | cons x xs ih =>
    simp only [List.foldl_cons]
    rw [ih _ (fun y hy => h y (List.mem_cons_of_mem _ hy))]
    exact mapGet_mapInsert_ne _ _ _ _ (h x (List.mem_cons_self _ _))

/-- Under pairwise-distinct keys, a fold of insertions maps each element
to its value. -/
theorem mapGet_foldl_mem {α β : Type} (key : α → String) (val : α → β)
    (xs : List α) (acc : List (String × β)) (x : α) (hx : x ∈ xs)
    (hnd : (xs.map key).Nodup) :
    mapGet (key x) (xs.foldl (fun a y => mapInsert (key y) (val y) a) acc) =
      some (val x) := by
  induction xs generalizing acc with
  | nil => cases hx
  | cons y ys ih =>
    simp only [List.map_cons, List.nodup_cons] at hnd
    obtain ⟨hny, hnd2⟩ := hnd
    rcases List.mem_cons.mp hx with h | h
    · subst h
      simp only [List.foldl_cons]
      rw [mapGet_foldl_not_mem key val ys _ _
        (fun z hz hkz => hny (by rw [← hkz]; exact List.mem_map_of_mem key hz))]
      exact mapGet_mapInsert_self _ _ _
    · exact ih _ h hnd2

/-- C1 (counterexample): the claim says `to_database_type` never panics
for any dialect, but for the MSSQL dialect it panics already on
`FieldType::Bool` with the message Unhandled. -/
theorem to_database_type_mssql_panics :
    to_database_type FieldType.bool SQLDialect.mssql =
      Except.error "Unhandled." := rfl

/-- C1 (amended): only the MySQL arm of the dialect mapping is
implemented.  For every field type, the MySQL mapping returns a database
type without panicking, and it returns `Undefined` exactly for the
composite or enum field types Enum, Vec, HashMap, BTreeMap, Object,
ObjectId and Undefined together with the scalar type Decimal, which
falls through to the map's catch-all arm; for the SQLite, PostgreSQL
and MSSQL dialects the mapping panics with Unhandled for every field
type. -/
theorem to_database_type_dialect_totality (ft : FieldType) :
    (∃ t, to_database_type ft SQLDialect.mysql = Except.ok t) ∧
    (to_database_type ft SQLDialect.mysql = Except.ok DatabaseType.undefined ↔
      (ft = FieldType.enum ∨ ft = FieldType.vec ∨ ft = FieldType.hashMap ∨
       ft = FieldType.bTreeMap ∨ ft = FieldType.object ∨
       ft = FieldType.objectId ∨ ft = FieldType.undefined ∨
       ft = FieldType.decimal)) ∧
    to_database_type ft SQLDialect.sqlite = Except.error "Unhandled." ∧
    to_database_type ft SQLDialect.postgresql = Except.error "Unhandled." ∧
    to_database_type ft SQLDialect.mssql = Except.error "Unhandled." := by
  cases ft <;>
    exact ⟨⟨_, rfl⟩,
      by simp [to_database_type, default_database_type_mysql], rfl, rfl, rfl⟩

/-- C5: in the MySQL column-type mapping, `String` maps to
`VarChar { m: 191, n: None, c: None }` and `DateTime` maps to
`DateTime(3)`, i.e. three fractional-second digits. -/
theorem mysql_string_varchar191_datetime3 :
    default_database_type_mysql FieldType.string =
      DatabaseType.varChar 191 none none ∧
    default_database_type_mysql FieldType.dateTime = DatabaseType.dateTime 3 ∧
    to_database_type FieldType.string SQLDialect.mysql =
      Except.ok (DatabaseType.varChar 191 none none) ∧
    to_database_type FieldType.dateTime SQLDialect.mysql =
      Except.ok (DatabaseType.dateTime 3) :=
  ⟨rfl, rfl, rfl, rfl⟩

/-- C2: for every model name and every JSON-object finder,
`Graph::find_first` behaves exactly as `Graph::find_many` applied to the
same finder with its take key set to 1 (overwriting any caller-supplied
take): a find_many error is propagated unchanged, an empty result list
becomes an object-not-found error, and otherwise the first element is
returned. -/
theorem find_first_is_find_many_with_take_one (g : Graph) (name : String)
    (o : List (String × Json)) (mode : Bool) (env : Env) :
    mapGet "take" (mapInsert "take" (Json.num 1) o) = some (Json.num 1) ∧
    g.findFirst name (Json.obj o) mode env =
      (match g.findMany name (Json.obj (mapInsert "take" (Json.num 1) o))
          mode env with
       | .panicked => .panicked
       | .ok (.error e) => .ok (.error e)
       | .ok (.ok []) => .ok (.error ActionError.objectNotFound)
       | .ok (.ok (x :: _)) => .ok (.ok x)) := by
  refine ⟨mapGet_mapInsert_self _ _ _, ?_⟩
  cases hm : g.model name with
  | none => simp [Graph.findFirst, Graph.findMany, hm]
  | some m =>
    cases hc : g.connectorFn with
    | panicked => simp [Graph.findFirst, Graph.findMany, Json.asObject, hm, hc]
    | ok c =>
      cases hr : c.findMany m (Json.obj (mapInsert "take" (Json.num 1) o))
          mode env with
      | error e =>
        simp [Graph.findFirst, Graph.findMany, Json.asObject, hm, hc, hr]
      | ok retval =>
        cases retval <;>
          simp [Graph.findFirst, Graph.findMany, Json.asObject, hm, hc, hr]

/-- C8: for a name that is not a model of the graph, every public query
method panics (unwrap of a `None` model lookup), while
`Graph::new_object`, and hence `Graph::create_object`, return an
invalid-operation error instead. -/
theorem undefined_model_query_panics (g : Graph) (name : String)
    (h : g.model name = none) :
    (∀ finder mode env, g.findUnique name finder mode env = .panicked) ∧
    (∀ finder mode env, g.findFirst name finder mode env = .panicked) ∧
    (∀ finder mode env, g.findMany name finder mode env = .panicked) ∧
    (∀ finder, g.count name finder = .panicked) ∧
    (∀ finder, g.aggregate name finder = .panicked) ∧
    (∀ finder, g.groupBy name finder = .panicked) ∧
    (∀ env, g.newObject name env =
      .error (.invalidOperation (modelNotDefinedMsg name))) ∧
    (∀ initial, g.createObject name initial =
      .error (.invalidOperation (modelNotDefinedMsg name))) := by
  refine ⟨?_, ?_, ?_, ?_, ?_, ?_, ?_, ?_⟩
  · intro finder mode env; simp [Graph.findUnique, h]
  · intro finder mode env; simp [Graph.findFirst, h]
  · intro finder mode env; simp [Graph.findMany, h]
  · intro finder; simp [Graph.count, h]
  · intro finder; simp [Graph.aggregate, h]
  · intro finder; simp [Graph.groupBy, h]
  · intro env; simp [Graph.newObject, h]
  · intro initial; simp [Graph.createObject, Graph.newObject, h]

/-- C8 (witness): on a concrete graph without a model named Nope, the
six query methods panic and object creation returns the
invalid-operation error. -/
theorem undefined_model_query_panics_witness :
    sampleGraph.model "Nope" = none ∧
    sampleGraph.findUnique "Nope" Json.null true Env.customCode = .panicked ∧
    sampleGraph.findFirst "Nope" Json.null true Env.customCode = .panicked ∧
    sampleGraph.findMany "Nope" Json.null true Env.customCode = .panicked ∧
    sampleGraph.count "Nope" Json.null = .panicked ∧
    sampleGraph.aggregate "Nope" Json.null = .panicked ∧
    sampleGraph.groupBy "Nope" Json.null = .panicked ∧
    sampleGraph.newObject "Nope" Env.customCode =
      .error (.invalidOperation (modelNotDefinedMsg "Nope")) ∧
    sampleGraph.createObject "Nope" Json.null =
      .error (.invalidOperation (modelNotDefinedMsg "Nope")) := by
  have h := undefined_model_query_panics sampleGraph "Nope" rfl
  exact ⟨rfl, h.1 _ _ _, h.2.1 _ _ _, h.2.2.1 _ _ _, h.2.2.2.1 _,
    h.2.2.2.2.1 _, h.2.2.2.2.2.1 _, h.2.2.2.2.2.2.1 _, h.2.2.2.2.2.2.2 _⟩

/-- C10: with pairwise-distinct model names and pairwise-distinct url
segment names, every registered model is found again by name and by url
segment, and every unregistered string maps to `None` under both
lookups. -/
theorem graph_new_lookup_roundtrip (enums : List (String × List String))
    (models : List Model) (connector : Option Connector)
    (hn : (models.map Model.name).Nodup)
    (hs : (models.map Model.urlSegmentName).Nodup) :
    (∀ m ∈ models, (Graph.new enums models connector).model m.name = some m) ∧
    (∀ m ∈ models,
      (Graph.new enums models connector).modelWithUrlSegmentName
        m.urlSegmentName = some m) ∧
    (∀ s, s ∉ models.map Model.name →
      (Graph.new enums models connector).model s = none) ∧
    (∀ s, s ∉ models.map Model.urlSegmentName →
      (Graph.new enums models connector).modelWithUrlSegmentName s = none) := by
  have hmodel : ∀ m ∈ models,
      (Graph.new enums models connector).model m.name = some m := by
    intro m hm
    exact mapGet_foldl_mem Model.name (fun m => m) models [] m hm hn
  refine ⟨hmodel, ?_, ?_, ?_⟩
  · intro m hm
    have hseg : mapGet m.urlSegmentName
        (Graph.new enums models connector).urlSegmentNameMap =
          some m.name :=
      mapGet_foldl_mem Model.urlSegmentName Model.name models [] m hm hs
    unfold Graph.modelWithUrlSegmentName
    rw [hseg]
    exact hmodel m hm
  · intro s hns
    have : ∀ x ∈ models, x.name ≠ s := by
      intro x hx hxs
      exact hns (hxs ▸ List.mem_map_of_mem Model.name hx)
    unfold Graph.model Graph.new
    rw [mapGet_foldl_not_mem Model.name (fun m => m) models [] s this]
    rfl
  · intro s hns
    have : ∀ x ∈ models, x.urlSegmentName ≠ s := by
      intro x hx hxs
      exact hns (hxs ▸ List.mem_map_of_mem Model.urlSegmentName hx)
    unfold Graph.modelWithUrlSegmentName Graph.new
    rw [mapGet_foldl_not_mem Model.urlSegmentName Model.name models [] s this]
    rfl

/-- C10 (witness): round-trip lookups on the concrete two-model graph. -/
theorem graph_new_lookup_roundtrip_witness :
    sampleGraph.model "A" = some modelA ∧
    sampleGraph.modelWithUrlSegmentName "bs" = some modelB ∧
    sampleGraph.model "C" = none ∧
    sampleGraph.modelWithUrlSegmentName "cs" = none := by
  have h := graph_new_lookup_roundtrip [] [modelA, modelB]
    (some emptyConnector) (by decide) (by decide)
  exact ⟨h.1 modelA (by simp), h.2.1 modelB (by simp),
    h.2.2.1 "C" (by decide), h.2.2.2 "cs" (by decide)⟩

/-- C4: for a relation without a through model, `opposite_relation`
returns the referenced model together with the first peer relation on it
whose fields equal this relation's references and whose references equal
this relation's fields, and `None` when the referenced model is missing
or no such peer exists; for a relation with a through model it equals
`opposite_relation` of the through model's relation named by the foreign
key (resolved transitively, one fuel step per hop). -/
theorem opposite_relation_spec (g : Graph) (r : Relation) (fuel : Nat) :
    (r.through = none → ∀ om, g.model r.model = some om →
      (g.oppositeRelation (fuel + 1) r =
        some (.ok ((om.relations.find?
          (fun p => p.fields == r.references && p.references == r.fields)).map
          (fun p => (om, p)))) ∧
       (∀ p, om.relations.find?
          (fun p2 => p2.fields == r.references && p2.references == r.fields) =
            some p →
          p.fields = r.references ∧ p.references = r.fields) ∧
       (om.relations.find?
          (fun p2 => p2.fields == r.references && p2.references == r.fields) =
            none →
          ∀ p ∈ om.relations,
            ¬(p.fields = r.references ∧ p.references = r.fields)))) ∧
    (r.through = none → g.model r.model = none →
      g.oppositeRelation (fuel + 1) r = some (.ok none)) ∧
    (∀ through throughModel r2, r.through = some through →
      g.model through = some throughModel →
      throughModel.relation r.foreign = some r2 →
      g.oppositeRelation (fuel + 1) r = g.oppositeRelation fuel r2) := by
  refine ⟨?_, ?_, ?_⟩
  · intro ht om hom
    refine ⟨?_, ?_, ?_⟩
    · cases hf : om.relations.find?
          (fun p => p.fields == r.references && p.references == r.fields) with
      | none => simp [Graph.oppositeRelation, ht, hom, hf]
      | some p => simp [Graph.oppositeRelation, ht, hom, hf]
    · intro p hp
      have := List.find?_some hp
      simp only [Bool.and_eq_true, beq_iff_eq] at this
      exact this
    · intro hf p hp
      have := List.find?_eq_none.mp hf p hp
      simp only [Bool.and_eq_true, beq_iff_eq, not_and] at this
      intro hcontra
      exact this hcontra.1 hcontra.2
  · intro ht hom
    simp [Graph.oppositeRelation, ht, hom]
  · intro through throughModel r2 ht htm hr2
    simp [Graph.oppositeRelation, ht, htm, hr2]

/-- C4 (witness): on the concrete two-model graph, the opposite of the
A-to-B relation is the B-to-A relation on model B. -/
theorem opposite_relation_spec_witness :
    relAB.through = none ∧
    sampleGraph.model relAB.model = some modelB ∧
    sampleGraph.oppositeRelation 1 relAB = some (.ok (some (modelB, relBA))) := by
  have h := (opposite_relation_spec sampleGraph relAB 0).1 rfl modelB (by decide)
  exact ⟨rfl, by decide, h.1.trans (by decide)⟩

/-- C6: for a parsed connector URL, `normalized_url` with the MySQL
dialect and an empty username sets the username to root and, when no
password is present, the password to the empty string; with a password
already present only the username changes; for a nonempty username or a
non-MySQL dialect the URL is returned unchanged. -/
theorem normalized_url_spec (dialect : SQLDialect) (u : Url) :
    (dialect = SQLDialect.mysql → u.username = "" → u.password = none →
      normalized_url dialect u =
        { u with username := "root", password := some "" }) ∧
    (dialect = SQLDialect.mysql → u.username = "" → u.password ≠ none →
      normalized_url dialect u = { u with username := "root" }) ∧
    (u.username ≠ "" → normalized_url dialect u = u) ∧
    (dialect ≠ SQLDialect.mysql → normalized_url dialect u = u) := by
  refine ⟨?_, ?_, ?_, ?_⟩
  · intro h1 h2 h3
    simp [normalized_url, Url.setUsername, Url.setPassword, h1, h2, h3]
  · intro h1 h2 h3
    simp [normalized_url, Url.setUsername, Url.setPassword, h1, h2, h3]
  · intro h
    simp [normalized_url, h]
  · intro h
    simp [normalized_url, h]

/-- C6 (witness): a credential-less MySQL URL gains root with an empty
password; the same URL under the PostgreSQL dialect is unchanged. -/
theorem normalized_url_spec_witness :
    normalized_url SQLDialect.mysql mysqlUrl =
      { mysqlUrl with username := "root", password := some "" } ∧
    normalized_url SQLDialect.postgresql mysqlUrl = mysqlUrl :=
  ⟨(normalized_url_spec SQLDialect.mysql mysqlUrl).1 rfl rfl rfl,
   (normalized_url_spec SQLDialect.postgresql mysqlUrl).2.2.2 (by decide)⟩

/-- C9: the application context is a guarded singleton: `create` returns
true exactly when no context exists, installing a fresh one; it returns
false leaving an existing context unchanged; `get` returns a fatal error
exactly when no context has been created, and the current context
otherwise. -/
theorem app_ctx_singleton_spec (current : Option AppCtx) :
    ((AppCtx.create current).1 = true ↔ current = none) ∧
    (current = none → AppCtx.create current = (true, some AppCtx.new)) ∧
    (∀ ctx, current = some ctx → AppCtx.create current = (false, some ctx)) ∧
    ((∃ e, AppCtx.get current = .error e) ↔ current = none) ∧
    (current = none → AppCtx.get current =
      .error (.fatal "App ctx is accessed while there is none.")) ∧
    (∀ ctx, current = some ctx → AppCtx.get current = .ok ctx) := by
  cases current with
  | none =>
    refine ⟨by simp [AppCtx.create], fun _ => rfl, ?_, ?_, fun _ => rfl, ?_⟩
    · intro ctx hctx; cases hctx
    · exact ⟨fun _ => rfl,
        fun _ => ⟨Error.fatal "App ctx is accessed while there is none.", rfl⟩⟩
    · intro ctx hctx; cases hctx
  | some ctx =>
    refine ⟨by simp [AppCtx.create], ?_, ?_, ?_, ?_, ?_⟩
    · intro hc; cases hc
    · intro ctx2 hctx2
      cases hctx2
      rfl
    · simp only [AppCtx.get]
      constructor
      · rintro ⟨e, he⟩; cases he
      · intro hc; cases hc
    · intro hc; cases hc
    · intro ctx2 hctx2
      cases hctx2
      rfl

/-- C9 (witness): creating with no context installs a fresh context and
returns true; creating again returns false and leaves it; `get` then
returns it. -/
theorem app_ctx_singleton_spec_witness :
    AppCtx.create none = (true, some AppCtx.new) ∧
    AppCtx.create (some AppCtx.new) = (false, some AppCtx.new) ∧
    AppCtx.get (some AppCtx.new) = .ok AppCtx.new :=
  ⟨(app_ctx_singleton_spec none).2.1 rfl,
   (app_ctx_singleton_spec (some AppCtx.new)).2.2.1 AppCtx.new rfl,
   (app_ctx_singleton_spec (some AppCtx.new)).2.2.2.2.2 AppCtx.new rfl⟩

/-- C7: two sequential Create actions on Simple with payload
uniqueString 1, requiredString 1: the first succeeds with status 200 (a
2xx status) and the fresh id 0, absent from the previously empty store;
the second fails with status 400 (a 4xx status), error type
ValidationError and the field-error map mapping uniqueString to the
duplicated-unique-value message. -/
theorem simple_create_unique_conflict :
    (simpleCreate [] "1" "1").1 = CreateResponse.success 200 0 "1" "1" ∧
    (200 : Nat) / 100 = 2 ∧
    (∀ row ∈ ([] : List SimpleRow), row.id ≠ 0) ∧
    (simpleCreate [] "1" "1").2 = [⟨0, "1", "1"⟩] ∧
    (simpleCreate (simpleCreate [] "1" "1").2 "1" "1").1 =
      CreateResponse.failure 400 "ValidationError" "Input is not valid."
        [("uniqueString", "Unique value duplicated.")] ∧
    (simpleCreate (simpleCreate [] "1" "1").2 "1" "1").2 =
      (simpleCreate [] "1" "1").2 ∧
    (400 : Nat) / 100 = 4 := by
  refine ⟨rfl, rfl, ?_, rfl, rfl, rfl, rfl⟩
  intro row hrow
  cases hrow

/-- One iteration of the batch loop, unfolded on a JSON-object finder. -/
theorem batchAux_step {σ : Type} (g : Graph) (model : String)
    (o : List (String × Json)) (env : Env)
    (f : Object → σ → Except ActionError σ) (fuel index : Nat) (s : σ) :
    g.batchAux model (Json.obj o) env f (fuel + 1) index s =
      (match g.findMany model (Json.obj (batchFinder o index)) true env with
       | .panicked => some .panicked
       | .ok (.error e) => some (.ok (.error e))
       | .ok (.ok results) =>
         match runCallback f results s with
         | .error e => some (.ok (.error e))
         | .ok s2 =>
           if results.length < batchSize then some (.ok (.ok s2))
           else g.batchAux model (Json.obj o) env f fuel (index + 1) s2) :=
  rfl

/-- The recording callback never fails and appends the page to its
trace. -/
theorem runCallback_recording (l s : List Object) :
    runCallback recordingCallback l s = .ok (s ++ l) := by
  induction l generalizing s with
  | nil => simp [runCallback]
  | cons x xs ih =>
    simp [runCallback, recordingCallback, ih, List.append_assoc]

/-- The recording state starts at the initial trace. -/
theorem recordingStates_zero (s0 : List Object) (rows : Nat → List Object) :
    recordingStates s0 rows 0 = s0 := by
  simp [recordingStates]

/-- Appending page `i` advances the recording state. -/
theorem recordingStates_succ (s0 : List Object) (rows : Nat → List Object)
    (i : Nat) :
    recordingStates s0 rows i ++ rows i = recordingStates s0 rows (i + 1) := by
  simp [recordingStates, List.range_succ, List.map_append, List.flatten_append,
    List.append_assoc]

/-- Advancing the batch loop across `k` consecutive full pages whose
callbacks succeed consumes `k` fuel and moves the index and the callback
state forward. -/
theorem batchAux_advance {σ : Type} (g : Graph) (model : String)
    (o : List (String × Json)) (env : Env)
    (f : Object → σ → Except ActionError σ) (rows : Nat → List Object)
    (st : Nat → σ) :
    ∀ (k j fuel : Nat),
    (∀ i, j ≤ i → i < j + k →
      g.findMany model (Json.obj (batchFinder o i)) true env =
        .ok (.ok (rows i))) →
    (∀ i, j ≤ i → i < j + k → batchSize ≤ (rows i).length) →
    (∀ i, j ≤ i → i < j + k → runCallback f (rows i) (st i) = .ok (st (i + 1))) →
    g.batchAux model (Json.obj o) env f (k + fuel) j (st j) =
      g.batchAux model (Json.obj o) env f fuel (j + k) (st (j + k)) := by
  intro k
  induction k with
  | zero => intro j fuel _ _ _; rw [Nat.zero_add, Nat.add_zero]
  | succ k ih =>
    intro j fuel h1 h2 h3
    have harith : k + 1 + fuel = (k + fuel) + 1 := by omega
    rw [harith]
    have hstep : g.batchAux model (Json.obj o) env f ((k + fuel) + 1) j (st j) =
        g.batchAux model (Json.obj o) env f (k + fuel) (j + 1) (st (j + 1)) := by
      rw [batchAux_step]
      simp only [h1 j (le_refl j) (by omega), h3 j (le_refl j) (by omega)]
      rw [if_neg (Nat.not_lt.mpr (h2 j (le_refl j) (by omega)))]
    rw [hstep]
    have hbounds1 : ∀ i, j + 1 ≤ i → i < (j + 1) + k →
        g.findMany model (Json.obj (batchFinder o i)) true env =
          .ok (.ok (rows i)) :=
      fun i hi1 hi2 => h1 i (by omega) (by omega)
    have hbounds2 : ∀ i, j + 1 ≤ i → i < (j + 1) + k →
        batchSize ≤ (rows i).length :=
      fun i hi1 hi2 => h2 i (by omega) (by omega)
    have hbounds3 : ∀ i, j + 1 ≤ i → i < (j + 1) + k →
        runCallback f (rows i) (st i) = .ok (st (i + 1)) :=
      fun i hi1 hi2 => h3 i (by omega) (by omega)
    rw [ih (j + 1) fuel hbounds1 hbounds2 hbounds3]
    have hjk : j + 1 + k = j + (k + 1) := by omega
    rw [hjk]

/-- C3: the batch loop pages with take 200 and skip 200 times the page
index; under successful pages and a recording callback it visits every
returned object in page order and returns ok exactly after the first
page shorter than 200 rows; a find_many error on any page, or a callback
error within a page, aborts the loop immediately with that error. -/
theorem batch_paging_spec (g : Graph) (model : String)
    (o : List (String × Json)) (env : Env) (rows : Nat → List Object) :
    (∀ i, mapGet "take" (batchFinder o i) = some (Json.num 200) ∧
      mapGet "skip" (batchFinder o i) = some (Json.num ((200 * i : Nat) : Int))) ∧
    (∀ n, (∀ i, i ≤ n →
        g.findMany model (Json.obj (batchFinder o i)) true env =
          .ok (.ok (rows i))) →
      (∀ i, i < n → batchSize ≤ (rows i).length) →
      (rows n).length < batchSize →
      ∀ (s0 : List Object) (fuel : Nat), n < fuel →
        g.batch model (Json.obj o) env recordingCallback fuel s0 =
          some (.ok (.ok (s0 ++ ((List.range (n + 1)).map rows).flatten)))) ∧
    (∀ k e, (∀ i, i < k →
        g.findMany model (Json.obj (batchFinder o i)) true env =
          .ok (.ok (rows i))) →
      (∀ i, i < k → batchSize ≤ (rows i).length) →
      g.findMany model (Json.obj (batchFinder o k)) true env = .ok (.error e) →
      ∀ (s0 : List Object) (fuel : Nat), k < fuel →
        g.batch model (Json.obj o) env recordingCallback fuel s0 =
          some (.ok (.error e))) ∧
    (∀ (σ : Type) (f : Object → σ → Except ActionError σ) (st : Nat → σ) k e,
      (∀ i, i < k →
        g.findMany model (Json.obj (batchFinder o i)) true env =
          .ok (.ok (rows i))) →
      (∀ i, i < k → batchSize ≤ (rows i).length) →
      (∀ i, i < k → runCallback f (rows i) (st i) = .ok (st (i + 1))) →
      g.findMany model (Json.obj (batchFinder o k)) true env =
        .ok (.ok (rows k)) →
      runCallback f (rows k) (st k) = .error e →
      ∀ (fuel : Nat), k < fuel →
        g.batchAux model (Json.obj o) env f fuel 0 (st 0) =
          some (.ok (.error e))) := by
  have hrecCb : ∀ (s0 : List Object) i,
      runCallback recordingCallback (rows i) (recordingStates s0 rows i) =
        .ok (recordingStates s0 rows (i + 1)) := by
    intro s0 i
    rw [runCallback_recording, recordingStates_succ]
  refine ⟨?_, ?_, ?_, ?_⟩
  · intro i
    constructor
    · exact mapGet_mapInsert_self _ _ _
    · have hm : i * batchSize = 200 * i := by simp [batchSize, Nat.mul_comm]
      simp only [batchFinder]
      rw [mapGet_mapInsert_ne _ _ _ _ (by decide), mapGet_mapInsert_self, hm]
  · intro n h1 h2 hlast s0 fuel hfuel
    obtain ⟨m, rfl⟩ : ∃ m, fuel = n + (m + 1) := ⟨fuel - n - 1, by omega⟩
    have hadv := batchAux_advance g model o env recordingCallback rows
      (recordingStates s0 rows) n 0 (m + 1)
      (fun i _ hi => h1 i (by omega))
      (fun i _ hi => h2 i (by omega))
      (fun i _ _ => hrecCb s0 i)
    rw [Nat.zero_add, recordingStates_zero] at hadv
    show g.batchAux model (Json.obj o) env recordingCallback
        (n + (m + 1)) 0 s0 = _
    rw [hadv, batchAux_step]
    simp only [h1 n (le_refl n), hrecCb s0 n]
    rw [if_pos hlast]
    simp [recordingStates]
  · intro k e h1 h2 herr s0 fuel hfuel
    obtain ⟨m, rfl⟩ : ∃ m, fuel = k + (m + 1) := ⟨fuel - k - 1, by omega⟩
    have hadv := batchAux_advance g model o env recordingCallback rows
      (recordingStates s0 rows) k 0 (m + 1)
      (fun i _ hi => h1 i (by omega))
      (fun i _ hi => h2 i (by omega))
      (fun i _ _ => hrecCb s0 i)
    rw [Nat.zero_add, recordingStates_zero] at hadv
    show g.batchAux model (Json.obj o) env recordingCallback
        (k + (m + 1)) 0 s0 = _
    rw [hadv, batchAux_step, herr]
  · intro σ f st k e h1 h2 h3 hpage hcberr fuel hfuel
    obtain ⟨m, rfl⟩ : ∃ m, fuel = k + (m + 1) := ⟨fuel - k - 1, by omega⟩
    have hadv := batchAux_advance g model o env f rows st k 0 (m + 1)
      (fun i _ hi => h1 i (by omega))
      (fun i _ hi => h2 i (by omega))
      (fun i _ hi => h3 i (by omega))
    rw [Nat.zero_add] at hadv
    rw [hadv, batchAux_step]
    simp only [hpage, hcberr]

/-- C3 (witness): on the concrete graph whose connector returns empty
pages, a batch run terminates on the first page with the empty trace. -/
theorem batch_paging_spec_witness :
    sampleGraph.batch "A" (Json.obj []) Env.customCode recordingCallback 1
        ([] : List Object) =
      some (.ok (.ok (([] : List Object) ++
        ((List.range 1).map (fun _ => ([] : List Object))).flatten))) := by
  exact (batch_paging_spec sampleGraph "A" [] Env.customCode
      (fun _ => [])).2.1 0
    (fun i _ => rfl)
    (fun i hi => absurd hi (Nat.not_lt_zero i))
    (by decide) [] 1 (by decide)

end Teo
